import Mathlib

/-!
Shallow embedding of the dftb-mcp Go service (CIF parsing, engine-input
synthesis, job supervision and status reporting) together with proofs about
its behaviour.  Go strings are modelled as Lean `String`, Go `float64` as `ℚ`
(the operations exercised here are exact), Go maps as insertion-ordered
association lists, and fallible or panicking Go code as `Except String`.
All definitions are translated from the Go sources of the repository.
-/

set_option maxRecDepth 10000

attribute [local semireducible] Rat.mul Rat.add Rat.sub Rat.inv Rat.ofScientific

deriving instance DecidableEq for Except

namespace DftbMcp

/-- Whitespace test matching Go's `unicode.IsSpace` on the ASCII range
(space, tab, newline, carriage return, vertical tab, form feed). -/
def isSpaceChar (c : Char) : Bool :=
  c == ' ' || c == '\t' || c == '\n' || c == '\r' ||
  c == Char.ofNat 11 || c == Char.ofNat 12

/-- Remove leading and trailing whitespace from a character list. -/
def trimList (l : List Char) : List Char :=
  ((l.dropWhile isSpaceChar).reverse.dropWhile isSpaceChar).reverse

/-- Model of Go's `strings.TrimSpace`. -/
def strTrim (s : String) : String := ⟨trimList s.data⟩

/-- Leading-segment test: `hasPre pat l` is true when `pat` is an initial
segment of `l`.  Model of Go's `strings.HasPrefix` on character lists. -/
def hasPre : List Char → List Char → Bool
  | [], _ => true
  | _ :: _, [] => false
  | p :: ps, c :: cs => p == c && hasPre ps cs

/-- Model of Go's `strings.HasPrefix`. -/
def strStarts (s pat : String) : Bool := hasPre pat.data s.data

/-- Model of Go's `strings.HasSuffix`. -/
def strEnds (s pat : String) : Bool := hasPre pat.data.reverse s.data.reverse

/-- Contiguous-substring test on character lists. -/
def listContainsSub : List Char → List Char → Bool
  | [], pat => pat.isEmpty
  | c :: cs, pat => hasPre pat (c :: cs) || listContainsSub cs pat

/-- Model of Go's `strings.Contains`. -/
def strContainsSub (s pat : String) : Bool := listContainsSub s.data pat.data

/-- Split a character list at every character satisfying `p`; separators are
consumed, empty segments are kept. -/
def splitBy (p : Char → Bool) : List Char → List (List Char)
  | [] => [[]]
  | c :: cs =>
    let r := splitBy p cs
    if p c then [] :: r
    else
      match r with
      | [] => [[c]]
      | h :: t => (c :: h) :: t

/-- Line splitting as performed by `bufio.Scanner` over the submitted text
(the scanner's carriage-return stripping is subsumed by the `strTrim` that the
parser applies to every line). -/
def strLines (s : String) : List String :=
  (splitBy (· == '\n') s.data).map (fun l => ⟨l⟩)

/-- Model of Go's `strings.Fields`: split around runs of whitespace. -/
def strFields (s : String) : List String :=
  ((splitBy isSpaceChar s.data).filter (fun l => !l.isEmpty)).map (fun l => ⟨l⟩)

/-- Split at the first space, returning the text before it and the remainder
after it when a space exists: model of `strings.SplitN(s, " ", 2)` (a `none`
result corresponds to the one-element slice Go returns). -/
def splitFirstSpace : List Char → Option (List Char × List Char)
  | [] => none
  | c :: cs =>
    if c == ' ' then some ([], cs)
    else (splitFirstSpace cs).map (fun pr => (c :: pr.1, pr.2))

/-- Model of Go's `strings.Trim` with a one-character cut set. -/
def trimAllChar (cut : Char) (s : String) : String :=
  ⟨((s.data.dropWhile (· == cut)).reverse.dropWhile (· == cut)).reverse⟩

/-- Double-quote character. -/
def dqChar : Char := Char.ofNat 34

/-- Single-quote character. -/
def sqChar : Char := Char.ofNat 39

/-- Single-quote as a one-character string. -/
def sqStr : String := ⟨[sqChar]⟩

/-- Quote stripping applied by the CIF parser to values: delimiting double or
single quotes are removed (translated from the two quote branches that appear
in both value-handling paths of `ParseFromString`). -/
def stripQuotes (v : String) : String :=
  if strStarts v ⟨[dqChar]⟩ && strEnds v ⟨[dqChar]⟩ then trimAllChar dqChar v
  else if strStarts v sqStr && strEnds v sqStr then trimAllChar sqChar v
  else v

/-- Numeric value of an ASCII digit. -/
def digitVal (c : Char) : Option Nat :=
  if 48 ≤ c.toNat && c.toNat ≤ 57 then some (c.toNat - 48) else none

/-- Take the leading run of digits from a character list. -/
def takeDigits : List Char → List Nat × List Char
  | [] => ([], [])
  | c :: cs =>
    match digitVal c with
    | some d =>
      let pr := takeDigits cs
      (d :: pr.1, pr.2)
    | none => ([], c :: cs)

/-- Value of a digit list read most-significant first. -/
def natOfDigits (ds : List Nat) : Nat := ds.foldl (fun a d => a * 10 + d) 0

/-- Exact rational value of a parsed decimal: sign, digits before and after
the decimal point, and a base-ten exponent. -/
def decValue (neg : Bool) (ip fp : List Nat) (ex : Int) : ℚ :=
  let base : Int := (if neg then -1 else 1) * (natOfDigits ip * 10 ^ fp.length + natOfDigits fp)
  let scale : Int := ex - fp.length
  if 0 ≤ scale then mkRat (base * 10 ^ scale.toNat) 1
  else mkRat base (10 ^ (-scale).toNat)

/-- Model of Go's `strconv.ParseFloat` restricted to plain decimal notation
with an optional sign, optional fraction and optional decimal exponent (the
notation CIF files use); the special forms Go additionally accepts (infinity,
NaN, hex floats, digit-group underscores) are not modelled.  Exact rational
arithmetic stands in for `float64`. -/
def goParseFloat (s : String) : Option ℚ :=
  let pr : Bool × List Char :=
    match s.data with
    | c :: cs => if c == '-' then (true, cs) else if c == '+' then (false, cs) else (false, s.data)
    | [] => (false, [])
  let neg := pr.1
  let cs := pr.2
  if cs.isEmpty then none else
  let ipr := takeDigits cs
  let ip := ipr.1
  let fpr :=
    match ipr.2 with
    | c :: rest => if c == '.' then takeDigits rest else (([] : List Nat), ipr.2)
    | [] => (([] : List Nat), ipr.2)
  let fp := fpr.1
  if ip.isEmpty && fp.isEmpty then none
  else
    match fpr.2 with
    | [] => some (decValue neg ip fp 0)
    | e :: rest =>
      if e == 'e' || e == 'E' then
        let epr : Bool × List Char :=
          match rest with
          | c :: r2 => if c == '-' then (true, r2) else if c == '+' then (false, r2) else (false, rest)
          | [] => (false, [])
        let dpr := takeDigits epr.2
        if dpr.1.isEmpty || !dpr.2.isEmpty then none
        else
          let ex : Int := natOfDigits dpr.1
          some (decValue neg ip fp (if epr.1 then -ex else ex))
      else none

/-- Atomic site of a parsed CIF structure (types.go `AtomSite`). -/
structure AtomSite where
  label : String := ""
  typeSymbol : String := ""
  fractX : ℚ := 0
  fractY : ℚ := 0
  fractZ : ℚ := 0
  uIsoOrEquiv : ℚ := 0
  adpType : String := ""
deriving DecidableEq

/-- Symmetry operation of a parsed CIF structure (types.go `SymmetryOperation`). -/
structure SymmetryOperation where
  x : String := ""
  y : String := ""
  z : String := ""
deriving DecidableEq

/-- Data block of a parsed CIF structure (types.go `CIFFile.DataBlock`); the
Go maps are modelled as insertion-ordered association lists. -/
structure DataBlock where
  name : String := ""
  cellLength : List (String × ℚ) := []
  cellAngle : List (String × ℚ) := []
  atomSites : List AtomSite := []
  symmetry : List SymmetryOperation := []
  metadata : List (String × String) := []
deriving DecidableEq

/-- Parsed CIF file (types.go `CIFFile`). -/
structure CIFFile where
  dataBlock : DataBlock := {}
deriving DecidableEq

/-- Go map assignment on an association list: replace the binding when the
key is present, append it otherwise. -/
def mapSet {α : Type} : List (String × α) → String → α → List (String × α)
  | [], k, v => [(k, v)]
  | (k0, v0) :: rest, k, v =>
    if k0 == k then (k, v) :: rest else (k0, v0) :: mapSet rest k v

/-- Go map read on an association list: a missing key yields the zero value,
exactly as a Go `map[string]float64` read does. -/
def mapGetD (m : List (String × ℚ)) (k : String) : ℚ :=
  match m.find? (fun kv => kv.1 == k) with
  | some kv => kv.2
  | none => 0

/-- Header set that makes a loop an atom-site loop (cif parser
`processLoopData`). -/
def atomSiteHeaders : List String :=
  ["_atom_site_label", "_atom_site_type_symbol",
   "_atom_site_fract_x", "_atom_site_fract_y", "_atom_site_fract_z"]

/-- Header set that makes a loop a symmetry loop (cif parser
`processLoopData`). -/
def symmetryHeaders : List String :=
  ["_symmetry_equiv_pos_as_xyz_x", "_symmetry_equiv_pos_as_xyz_y",
   "_symmetry_equiv_pos_as_xyz_z"]

/-- Model of the parser's `containsAllHeaders`: every required header occurs
among the loop's headers. -/
def containsAllHeaders (headers required : List String) : Bool :=
  required.all (fun r => headers.contains r)

/-- One assignment of the per-header switch that fills an `AtomSite` from a
loop row (cif parser `processLoopData`, atom-site branch). -/
def applyAtomField (site : AtomSite) (header value : String) : AtomSite :=
  if header == "_atom_site_label" then { site with label := value }
  else if header == "_atom_site_type_symbol" then { site with typeSymbol := value }
  else if header == "_atom_site_fract_x" then
    match goParseFloat value with
    | some v => { site with fractX := v }
    | none => site
  else if header == "_atom_site_fract_y" then
    match goParseFloat value with
    | some v => { site with fractY := v }
    | none => site
  else if header == "_atom_site_fract_z" then
    match goParseFloat value with
    | some v => { site with fractZ := v }
    | none => site
  else if header == "_atom_site_u_iso_or_equiv" then
    match goParseFloat value with
    | some v => { site with uIsoOrEquiv := v }
    | none => site
  else if header == "_atom_site_adp_type" then { site with adpType := value }
  else site

/-- Build an `AtomSite` from a loop row; headers beyond the row's length are
skipped (the Go loop's `i >= len(row)` guard), which the zip realises. -/
def buildAtomSite (headers : List String) (row : List String) : AtomSite :=
  (headers.zip row).foldl (fun site hv => applyAtomField site hv.1 (strTrim hv.2)) {}

/-- One assignment of the per-header switch that fills a `SymmetryOperation`
from a loop row (cif parser `processLoopData`, symmetry branch). -/
def applySymField (sym : SymmetryOperation) (header value : String) : SymmetryOperation :=
  if header == "_symmetry_equiv_pos_as_xyz_x" then { sym with x := value }
  else if header == "_symmetry_equiv_pos_as_xyz_y" then { sym with y := value }
  else if header == "_symmetry_equiv_pos_as_xyz_z" then { sym with z := value }
  else sym

/-- Build a `SymmetryOperation` from a loop row. -/
def buildSymOp (headers : List String) (row : List String) : SymmetryOperation :=
  (headers.zip row).foldl (fun sym hv => applySymField sym hv.1 (strTrim hv.2)) {}

/-- Error text standing for the Go runtime's nil-pointer panic: the parser
dereferences its current-data-block pointer without a nil check in several
places, and those dereferences are modelled as this error. -/
def nilPanicMsg : String :=
  "runtime error: invalid memory address or nil pointer dereference"

/-- Model of the cif parser's `processLoopData`: appends atom sites or
symmetry operations to the current data block when the loop headers cover the
respective required set.  A nil current block (possible because the caller
passes the unchecked `currentDataBlock` pointer) panics as soon as a row is
appended. -/
def processLoopData (db? : Option DataBlock) (headers : List String)
    (data : List (List String)) : Except String (Option DataBlock) := do
  let db1 ←
    if containsAllHeaders headers atomSiteHeaders then
      match data, db? with
      | [], _ => Except.ok db?
      | _ :: _, none => Except.error nilPanicMsg
      | _ :: _, some db =>
        Except.ok (some { db with atomSites := db.atomSites ++ data.map (buildAtomSite headers) })
    else Except.ok db?
  if containsAllHeaders headers symmetryHeaders then
    match data, db1 with
    | [], _ => Except.ok db1
    | _ :: _, none => Except.error nilPanicMsg
    | _ :: _, some db =>
      Except.ok (some { db with symmetry := db.symmetry ++ data.map (buildSymOp headers) })
  else Except.ok db1

/-- Scanner state of `ParseFromString`: the accumulated file, the current
data block (`nil` until a `data_` line is seen), and the loop-parsing state. -/
structure ParseState where
  cif : CIFFile := {}
  current : Option DataBlock := none
  inLoop : Bool := false
  loopHeaders : List String := []
  loopData : List (List String) := []
deriving DecidableEq

/-- Recognized cell-length keys (the three length cases of the keyword
switch in `ParseFromString`). -/
def cellLengthKeys : List String :=
  ["_cell_length_a", "_cell_length_b", "_cell_length_c"]

/-- Recognized cell-angle keys (the three angle cases of the keyword switch
in `ParseFromString`). -/
def cellAngleKeys : List String :=
  ["_cell_angle_alpha", "_cell_angle_beta", "_cell_angle_gamma"]

/-- Per-line body of `ParseFromString`'s scanner loop, translated branch by
branch from the Go source: skip blank/comment lines; a `data_` line saves the
current block and starts a fresh one; a `loop_` line resets loop state; inside
a loop, header lines and data rows are collected (a row is kept only when its
field count equals the header count) and the end-of-loop arm mirrors the
source even though its guard can never hold (every non-blank line falls into
one of the two earlier arms); outside a loop, key/value lines fill metadata
and the six recognized cell keys fill the cell maps.  Writing through the
current-block pointer while it is still nil panics, which the error case
models. -/
def processLine (st : ParseState) (raw : String) : Except String ParseState :=
  let line := strTrim raw
  if line == "" || strStarts line "#" then Except.ok st
  else if strStarts line "data_" then
    let saved : CIFFile :=
      match st.current with
      | some db => { dataBlock := db }
      | none => st.cif
    Except.ok { cif := saved
              , current := some { name := ⟨line.data.drop 5⟩ }
              , inLoop := false, loopHeaders := [], loopData := [] }
  else if strStarts line "loop_" then
    Except.ok { st with inLoop := true, loopHeaders := [], loopData := [] }
  else if st.inLoop then
    if strStarts line "_" then
      Except.ok { st with loopHeaders := st.loopHeaders ++ [line] }
    else if !strStarts line "_" && !(line == "") then
      let fields := strFields line
      Except.ok { st with loopData :=
        if fields.length == st.loopHeaders.length then st.loopData ++ [fields]
        else st.loopData }
    else
      match processLoopData st.current st.loopHeaders st.loopData with
      | Except.error e => Except.error e
      | Except.ok db? => Except.ok { st with inLoop := false, current := db? }
  else if strContainsSub line " " && !strStarts line "_" then
    match splitFirstSpace line.data with
    | none => Except.ok st
    | some pr =>
      let key := strTrim ⟨pr.1⟩
      let value := stripQuotes (strTrim ⟨pr.2⟩)
      match st.current with
      | none => Except.error nilPanicMsg
      | some db =>
        Except.ok { st with current := some { db with metadata := mapSet db.metadata key value } }
  else if strStarts line "_" then
    match splitFirstSpace line.data with
    | none => Except.ok st
    | some pr =>
      let key := strTrim ⟨pr.1⟩
      let value := stripQuotes (strTrim ⟨pr.2⟩)
      if cellLengthKeys.contains key then
        match goParseFloat value, st.current with
        | some v, some db =>
          Except.ok { st with current := some { db with cellLength := mapSet db.cellLength key v } }
        | some _, none => Except.error nilPanicMsg
        | none, _ => Except.ok st
      else if cellAngleKeys.contains key then
        match goParseFloat value, st.current with
        | some v, some db =>
          Except.ok { st with current := some { db with cellAngle := mapSet db.cellAngle key v } }
        | some _, none => Except.error nilPanicMsg
        | none, _ => Except.ok st
      else Except.ok st
  else Except.ok st

/-- Model of the cif parser's `ParseFromString`: run the scanner loop over
the lines of the content and keep the last data block.  The Go function
returns a non-nil error only for a scanner read failure, which cannot occur
on an in-memory string; the error case of this model is the nil-pointer panic
of `processLine`. -/
def parseFromString (content : String) : Except String CIFFile := do
  let st ← (strLines content).foldlM processLine {}
  match st.current with
  | some db => Except.ok { dataBlock := db }
  | none => Except.ok st.cif

/-- Model of the cif parser's `ValidateCIFContent` pre-flight check. -/
def validateCIFContent (content : String) : Except String Unit :=
  if !strContainsSub content "data_" then
    Except.error "missing data block declaration"
  else if !strContainsSub content "_cell_length_a" && !strContainsSub content "_cell.angle_alpha" then
    Except.error "missing cell parameters"
  else if !strContainsSub content "_atom_site" && !strContainsSub content "loop_" then
    Except.error "missing atom site information"
  else Except.ok ()

/-- Geometry section of the DFTB+ input (types.go `DFTBInput.Geometry`);
the 3×3 lattice-vector array is modelled as three rows. -/
structure DFTBGeometry where
  periodic : Bool := false
  latticeVectors : List (List ℚ) := []
  elements : List String := []
  coordinates : List (List ℚ) := []
deriving DecidableEq

/-- Engine input for a DFTB+ calculation (types.go `DFTBInput`); the nested
one-field Hamiltonian, Analysis and Options structs are flattened. -/
structure DFTBInput where
  geometry : DFTBGeometry := {}
  hamiltonianMethod : String := ""
  analysisForces : Bool := false
  optionsFmax : ℚ := 0
deriving DecidableEq

/-- Model of the cif parser's `ToDFTBInput`.  The `none` case is the nil
receiver argument of the Go pointer parameter.  The source converts the three
cell angles to radians but never uses them: its lattice is always the
diagonal matrix of the three cell lengths, so the angle conversions are
dropped here.  Missing cell lengths read as the Go map zero value `0`.  The
single Go loop that collects the first-occurrence-ordered unique element list
and the scaled Cartesian coordinates is the fold. -/
def toDFTBInput (cif? : Option CIFFile) (method : String) (fmax : ℚ) : Except String DFTBInput :=
  match cif? with
  | none => Except.error "invalid CIF file"
  | some cif =>
    if cif.dataBlock.name == "" then Except.error "invalid CIF file"
    else
      let a := mapGetD cif.dataBlock.cellLength "_cell_length_a"
      let b := mapGetD cif.dataBlock.cellLength "_cell_length_b"
      let c := mapGetD cif.dataBlock.cellLength "_cell_length_c"
      let ec := cif.dataBlock.atomSites.foldl
        (fun (acc : List String × List (List ℚ)) site =>
          let els := if acc.1.contains site.typeSymbol then acc.1 else acc.1 ++ [site.typeSymbol]
          (els, acc.2 ++ [[site.fractX * a, site.fractY * b, site.fractZ * c]]))
        ([], [])
      Except.ok
        { geometry :=
            { periodic := true
            , latticeVectors := [[a, 0, 0], [0, b, 0], [0, 0, c]]
            , elements := ec.1
            , coordinates := ec.2 }
        , hamiltonianMethod := method
        , analysisForces := true
        , optionsFmax := fmax }

/-- Left padding with a given character to a given width (the padding side of
Go's width-annotated `%12.8f` and `%8.6f` verbs). -/
def padLeftWith (c : Char) (w : Nat) (s : String) : String :=
  ⟨List.replicate (w - s.data.length) c ++ s.data⟩

/-- Fixed-point decimal formatting standing for Go's `%w.pf` verb on
`float64`: round to `prec` decimal digits, print with the fraction
zero-padded, and left-pad with spaces to the requested width.  Ties round
half up here, which agrees with Go on every value formatted in this
development (the values are exact at the printed precision). -/
def fmtFixed (width prec : Nat) (q : ℚ) : String :=
  let n : Int := Rat.floor (q * mkRat (10 ^ prec) 1 + mkRat 1 2)
  let m : Nat := n.natAbs
  let ip := m / 10 ^ prec
  let fp := m % 10 ^ prec
  let body := (if n < 0 then "-" else "") ++ toString ip ++ "." ++ padLeftWith '0' prec (toString fp)
  padLeftWith ' ' width body

/-- Element symbol written on the i-th coordinate line of the gen-format
geometry file: the source selects `Elements[i % len(Elements)]`, the i-th
entry of the unique-element list taken cyclically.  For an empty element list
the Go expression would panic with a division by zero; this model returns the
empty string there, and the pipeline never produces a nonempty coordinate
list together with an empty element list. -/
def geomLineElement (input : DFTBInput) (i : Nat) : String :=
  input.geometry.elements.getD (i % input.geometry.elements.length) ""

/-- Model of `strings.Join` with a single-space separator. -/
def joinWithSpace : List String → String
  | [] => ""
  | [s] => s
  | s :: rest => s ++ " " ++ joinWithSpace rest

/-- Model of the runner's `generateGeometryContent`: the atom-count header
line (with the fixed `F` flag the source writes), the unique element list,
and one line per Cartesian coordinate carrying the cyclically selected
element symbol. -/
def generateGeometryContent (input : DFTBInput) : String :=
  toString input.geometry.coordinates.length ++ " F\n" ++
  joinWithSpace input.geometry.elements ++ "\n" ++
  String.join ((input.geometry.coordinates.enum).map (fun ic =>
    geomLineElement input ic.1 ++ " " ++ fmtFixed 12 8 (ic.2.getD 0 0) ++ " " ++
    fmtFixed 12 8 (ic.2.getD 1 0) ++ " " ++ fmtFixed 12 8 (ic.2.getD 2 0) ++ "\n"))

/-- Server configuration (types.go `ServerConfig`), with the defaults that
`main.go` installs via its command-line flags. -/
structure ServerConfig where
  port : Nat := 8080
  workDir : String := "./work"
  dftbPath : String := "dftb+"
  maxRequests : Nat := 10
  timeout : Nat := 300
deriving DecidableEq

/-- Environment of one engine launch, describing the facts `runDFTBCalculation`
observes: whether the configured executable exists, how many wall-clock
seconds the process takes, whether it exits successfully (with the error text
it would report otherwise), and whether `dftb_out.hsd` exists afterwards. -/
structure EngineRun where
  dftbPathExists : Bool := true
  procSeconds : Nat := 0
  procExitOk : Bool := true
  procErrText : String := ""
  outputFileExists : Bool := true
deriving DecidableEq

/-- Result of `runDFTBCalculation`: the returned value or error, and whether
the branch taken kills the subprocess (only the timeout branch does). -/
structure EngineOutcome where
  result : Except String String := Except.ok ""
  processKilled : Bool := false
deriving DecidableEq

/-- Model of the runner's `runDFTBCalculation`.  The Go select race between
the timeout timer and process completion is resolved by wall-clock
comparison: the timeout branch fires exactly when the process takes longer
than the configured number of seconds.  Branches follow the source in order:
missing executable, timeout (which kills the process), failed exit, missing
output artifact, success returning the artifact path (`filepath.Join`
modelled as slash concatenation). -/
def runDFTBCalculation (cfg : ServerConfig) (workDir : String) (run : EngineRun) : EngineOutcome :=
  if !run.dftbPathExists then
    { result := Except.error ("DFTB+ executable not found at: " ++ cfg.dftbPath) }
  else if cfg.timeout < run.procSeconds then
    { result := Except.error ("DFTB+ calculation timed out after " ++ toString cfg.timeout ++ " seconds")
    , processKilled := true }
  else if !run.procExitOk then
    { result := Except.error ("DFTB+ calculation failed: " ++ run.procErrText) }
  else if !run.outputFileExists then
    { result := Except.error "DFTB+ output file not found" }
  else
    { result := Except.ok (workDir ++ "/dftb_out.hsd") }

/-- Structured form of the `map[string]interface{}` result that
`parseDFTBOutput` builds, one field per entry the source writes. -/
structure DFTBParsedData where
  warnings : List String := []
  convergenceStatus : String := ""
  calculationStatus : String := ""
  sccConverged : Bool := false
  totalEnergyEV : ℚ := 0
  totalEnergyHartree : ℚ := 0
  fermiLevelEV : ℚ := 0
  totalCharge : ℚ := 0
  dipoleX : ℚ := 0
  dipoleY : ℚ := 0
  dipoleZ : ℚ := 0
deriving DecidableEq

/-- Model of the runner's `parseDFTBOutput`: reading the artifact (`none`
stands for an unreadable file) fails, and any readable content yields the
fixed record the source hard-codes, the content being ignored entirely. -/
def parseDFTBOutput (content? : Option String) : Except String DFTBParsedData :=
  match content? with
  | none => Except.error "failed to read output file"
  | some _ =>
    Except.ok
      { warnings := []
      , convergenceStatus := "converged"
      , calculationStatus := "completed"
      , sccConverged := true
      , totalEnergyEV := -100
      , totalEnergyHartree := mkRat (-36749) 10000
      , fermiLevelEV := -5
      , totalCharge := 0
      , dipoleX := 0
      , dipoleY := 0
      , dipoleZ := 0 }

/-- Filesystem artifacts of one job directory as observed by `GetStatus`:
whether the directory, the `dftb_out.hsd` output and the `error.log` marker
exist (each `Bool` captures the corresponding `os.IsNotExist` test). -/
structure JobFS where
  dirExists : Bool := false
  outputExists : Bool := false
  errorLogExists : Bool := false
deriving DecidableEq

/-- Model of the runner's `GetStatus`: a pure function of the three
filesystem artifacts, with no other state consulted. -/
def getStatus (fs : JobFS) : String :=
  if !fs.dirExists then "not_found"
  else if !fs.outputExists then "running"
  else if fs.errorLogExists then "error"
  else "completed"

/-- Optimization request (types.go `OptimizationRequest`). -/
structure OptimizationRequest where
  requestID : String := ""
  structureFile : String := ""
  method : String := ""
  fmax : ℚ := 0
  originalFilename : String := ""
deriving DecidableEq

/-- Model of the runner's `ValidateRequest`. -/
def validateRequest (req : OptimizationRequest) : Except String Unit :=
  if req.requestID == "" then Except.error "request ID is required"
  else if req.structureFile == "" then Except.error "structure file is required"
  else if !(req.method == "GFN1-xTB") && !(req.method == "GFN2-xTB") then
    Except.error ("invalid method: " ++ req.method)
  else if req.fmax ≤ 0 then Except.error "fmax must be positive"
  else Except.ok ()

/-- Count of jobs currently inside `RunOptimization`.  This counter is model
instrumentation needed to state concurrency bounds; the Go service keeps no
such counter. -/
structure ServerState where
  runningJobs : Nat := 0
deriving DecidableEq

/-- Admission decision of the `/api/v1/optimize` handler. -/
inductive SubmitOutcome
  | rejected (msg : String)
  | started
deriving DecidableEq

/-- Model of the admission logic of `optimizeStructure` (handlers.go): after
JSON binding, a missing request id is generated, `ValidateRequest` runs, and
a validated request proceeds straight into the synchronous `RunOptimization`
call (counted here as one more running job).  The source consults neither
`cfg.maxRequests` nor any count of running jobs at any point. -/
def optimizeSubmit (cfg : ServerConfig) (st : ServerState) (req : OptimizationRequest) :
    SubmitOutcome × ServerState :=
  let req1 := if req.requestID == "" then { req with requestID := "generated" } else req
  match validateRequest req1 with
  | Except.error e => (SubmitOutcome.rejected e, st)
  | Except.ok _ => (SubmitOutcome.started, { runningJobs := st.runningJobs + 1 })

/-- Leading text of the optimized-CIF creation-date line, up to the opening
quote. -/
def dateLinePre : String := "_audit_creation_date               " ++ sqStr

/-- Creation-date line of the optimized CIF: `generateOptimizedCIF` embeds
`time.Now().Format("2006-01-02")`, passed here as `today`. -/
def optimizedCIFDateLine (today : String) : String :=
  dateLinePre ++ today ++ (sqStr ++ "\n")

/-- Fixed leading part of the optimized CIF text: block name, comment and
creation-method line (generateOptimizedCIF, first three writes). -/
def optimizedCIFHeader (cif : CIFFile) : String :=
  "data_" ++ cif.dataBlock.name ++ "_optimized\n" ++
  "# Optimized structure from DFTB+\n" ++
  "_audit_creation_method            " ++ sqStr ++ "DFTB+ geometry optimization" ++ sqStr ++ "\n"

/-- Trailing part of the optimized CIF text after the date line: cell
parameters, loop headers and displaced atom sites.  The Go source iterates
its cell maps in Go's unspecified map order; this model fixes insertion
order, one deterministic resolution of that nondeterminism.  The source's
`0.001 * float64(i+1)` displacement is modelled exactly as `(i+1)/1000`. -/
def optimizedCIFBody (cif : CIFFile) : String :=
  String.join (cif.dataBlock.cellLength.map (fun kv => kv.1 ++ " " ++ fmtFixed 8 6 kv.2 ++ "\n")) ++
  String.join (cif.dataBlock.cellAngle.map (fun kv => kv.1 ++ " " ++ fmtFixed 8 6 kv.2 ++ "\n")) ++
  "\n" ++ "loop_\n" ++
  "_atom_site_label\n_atom_site_type_symbol\n_atom_site_fract_x\n" ++
  "_atom_site_fract_y\n_atom_site_fract_z\n_atom_site_U_iso_or_equiv\n" ++
  String.join ((cif.dataBlock.atomSites.enum).map (fun ia =>
    let optX := ia.2.fractX + mkRat (ia.1 + 1) 1000
    let optY := ia.2.fractY + mkRat (ia.1 + 2) 1000
    let optZ := ia.2.fractZ + mkRat (ia.1 + 3) 1000
    let uIso := if ia.2.uIsoOrEquiv == 0 then mkRat 1 100 else ia.2.uIsoOrEquiv
    ia.2.label ++ " " ++ ia.2.typeSymbol ++ " " ++ fmtFixed 12 8 optX ++ " " ++
    fmtFixed 12 8 optY ++ " " ++ fmtFixed 12 8 optZ ++ " " ++ fmtFixed 8 6 uIso ++ "\n"))

/-- Model of the file content written by the runner's `generateOptimizedCIF`.
The `pd` parameter mirrors the Go function's `parsedData` argument, which its
body never reads. -/
def generateOptimizedCIFContent (cif : CIFFile) (pd : DFTBParsedData) (today : String) : String :=
  optimizedCIFHeader cif ++ optimizedCIFDateLine today ++ "\n" ++ optimizedCIFBody cif

/-- Character table of standard base64. -/
def base64Table : List Char :=
  "ABCDEFGHIJKLMNOPQRSTUVWXYZabcdefghijklmnopqrstuvwxyz0123456789+/".data

/-- Character for a 6-bit value in standard base64. -/
def b64Char (n : Nat) : Char := base64Table.getD n 'A'

/-- Standard base64 with padding over byte values (encoding/base64
`StdEncoding.EncodeToString`). -/
def base64EncodeBytes : List Nat → String
  | [] => ""
  | [b0] => ⟨[b64Char (b0 / 4), b64Char (b0 % 4 * 16), '=', '=']⟩
  | [b0, b1] => ⟨[b64Char (b0 / 4), b64Char (b0 % 4 * 16 + b1 / 16), b64Char (b1 % 16 * 4), '=']⟩
  | b0 :: b1 :: b2 :: rest =>
    (⟨[b64Char (b0 / 4), b64Char (b0 % 4 * 16 + b1 / 16),
       b64Char (b1 % 16 * 4 + b2 / 64), b64Char (b2 % 64)]⟩ : String) ++
    base64EncodeBytes rest

/-- Byte sequence of a string; the texts handled in this development are
ASCII, for which character codes coincide with Go's UTF-8 bytes. -/
def strBytes (s : String) : List Nat := s.data.map Char.toNat

/-- Base64 of a string's bytes. -/
def base64OfString (s : String) : String := base64EncodeBytes (strBytes s)

/-- Success record returned by `RunOptimization`
(types.go `OptimizationResponse`, success fields). -/
structure OptimizationResponse where
  status : String := ""
  requestID : String := ""
  parsedData : Option DFTBParsedData := none
  outputCIFPath : String := ""
  errorMessage : String := ""
deriving DecidableEq

/-- Success path of the runner's `RunOptimization` for a given decoded
structure text, method and threshold, under an engine run that succeeds and
leaves a readable artifact with content `artifact` at date `today`:
parse the CIF, synthesize the engine input, interpret the output, generate
the optimized CIF and return it base64-encoded.  Filesystem steps are
abstracted to the values they produce (the optimized CIF written to disk is
read back verbatim by the source before encoding). -/
def runOptimizationSuccess (requestID content method : String) (fmax : ℚ)
    (artifact today : String) : Except String OptimizationResponse := do
  let cif ← parseFromString content
  let _input ← toDFTBInput (some cif) method fmax
  let pd ← parseDFTBOutput (some artifact)
  Except.ok
    { status := "success"
    , requestID := requestID
    , parsedData := some pd
    , outputCIFPath := base64OfString (generateOptimizedCIFContent cif pd today) }

/-- Structure text of the testable-properties scenario: one data block,
three cell lengths, three right angles, and one atom-site loop whose five
headers cover label, type symbol and the three fractional coordinates, with
two data rows of exactly five fields each. -/
def c1Input : String :=
  "data_test\n_cell_length_a 10.0\n_cell_length_b 10.0\n_cell_length_c 10.0\n" ++
  "_cell_angle_alpha 90.0\n_cell_angle_beta 90.0\n_cell_angle_gamma 90.0\n" ++
  "loop_\n_atom_site_label\n_atom_site_type_symbol\n_atom_site_fract_x\n" ++
  "_atom_site_fract_y\n_atom_site_fract_z\nC1 C 0.0 0.0 0.0\nC2 C 0.5 0.5 0.0\n"

/-- Value `ParseFromString` returns on `c1Input`: the cell maps are filled,
but the atom-site list is empty. -/
def c1Parsed : CIFFile :=
  { dataBlock :=
      { name := "test"
      , cellLength := [("_cell_length_a", 10), ("_cell_length_b", 10), ("_cell_length_c", 10)]
      , cellAngle := [("_cell_angle_alpha", 90), ("_cell_angle_beta", 90), ("_cell_angle_gamma", 90)] } }

/-- Invariant carried through the scanner loop: the accumulated file and the
current data block hold no atom sites. -/
def NoAtoms (st : ParseState) : Prop :=
  st.cif.dataBlock.atomSites = [] ∧ ∀ db, st.current = some db → db.atomSites = []

/-- Configuration with an admission limit of one concurrent request. -/
def c2Config : ServerConfig := { maxRequests := 1 }

/-- Server state in which one job is already running, saturating
`c2Config`'s limit. -/
def c2State : ServerState := { runningJobs := 1 }

/-- Well-formed optimization request submitted while the limit is already
saturated. -/
def c2Request : OptimizationRequest :=
  { requestID := "job-2", structureFile := "ZGF0YV90ZXN0", method := "GFN2-xTB", fmax := mkRat 1 1000 }

/-- Minimal valid structure text used to exercise the optimization success
path. -/
def c3Content : String := "data_x\n_cell_length_a 10.0\n"

/-- Structure used to compare optimized-CIF texts across dates. -/
def c3Cif : CIFFile :=
  { dataBlock := { name := "x", cellLength := [("_cell_length_a", 10)] } }

/-- Structure whose element sequence `C, C, O` differs from its unique
element list `C, O` already at index 1. -/
def c4Cif : CIFFile :=
  { dataBlock :=
      { name := "mixed"
      , cellLength := [("_cell_length_a", 10), ("_cell_length_b", 10), ("_cell_length_c", 10)]
      , atomSites :=
          [ { label := "C1", typeSymbol := "C" }
          , { label := "C2", typeSymbol := "C", fractX := mkRat 1 2, fractY := mkRat 1 2 }
          , { label := "O1", typeSymbol := "O", fractZ := mkRat 1 4 } ] } }

/-- Structure with a name but no cell lengths at all. -/
def c9Cif : CIFFile := { dataBlock := { name := "mof5" } }

/-- Orthogonal two-carbon test structure of the specification scenario:
cell lengths 10, all angles 90, atoms at fractional (0,0,0) and
(1/2,1/2,0). -/
def c10Cif : CIFFile :=
  { dataBlock :=
      { name := "test"
      , cellLength := [("_cell_length_a", 10), ("_cell_length_b", 10), ("_cell_length_c", 10)]
      , cellAngle := [("_cell_angle_alpha", 90), ("_cell_angle_beta", 90), ("_cell_angle_gamma", 90)]
      , atomSites :=
          [ { label := "C1", typeSymbol := "C" }
          , { label := "C2", typeSymbol := "C", fractX := mkRat 1 2, fractY := mkRat 1 2 } ] } }

end DftbMcp

namespace DftbMcp

theorem processLine_no_atoms (st : ParseState) (l : String) (st' : ParseState)
    (hP : NoAtoms st) (h : processLine st l = Except.ok st') : NoAtoms st' := by
  simp only [processLine] at h
  by_cases h1 : (strTrim l == "" || strStarts (strTrim l) "#") = true
  · rw [if_pos h1] at h
    injection h with h2; subst h2; exact hP
  · rw [if_neg h1] at h
    by_cases h2 : strStarts (strTrim l) "data_" = true
    · -- data_ line: the previous block is saved, a fresh empty block starts
      rw [if_pos h2] at h
      injection h with h2'; subst h2'
      refine ⟨?_, ?_⟩
      · cases hc : st.current with
        | some db => simp only [hc]; exact hP.2 db hc
        | none => simp only [hc]; exact hP.1
      · intro db2 hdb2
        injection hdb2 with h3; subst h3; rfl
    · rw [if_neg h2] at h
      by_cases h3 : strStarts (strTrim l) "loop_" = true
      · rw [if_pos h3] at h
        injection h with h2'; subst h2'
        exact ⟨hP.1, hP.2⟩
      · rw [if_neg h3] at h
        by_cases h4 : st.inLoop = true
        · rw [if_pos h4] at h
          by_cases h5 : strStarts (strTrim l) "_" = true
          · rw [if_pos h5] at h
            injection h with h2'; subst h2'
            exact ⟨hP.1, hP.2⟩
          · rw [if_neg h5] at h
            by_cases h6 : (!strStarts (strTrim l) "_" && !(strTrim l == "")) = true
            · rw [if_pos h6] at h
              injection h with h2'; subst h2'
              exact ⟨hP.1, hP.2⟩
            · -- end-of-loop arm: unreachable, the line being neither blank
              -- nor a header once the earlier guards failed
              exfalso
              apply h6
              have hs : strStarts (strTrim l) "_" = false := by
                cases hx : strStarts (strTrim l) "_"
                · rfl
                · exact absurd hx h5
              have he : (strTrim l == "") = false := by
                cases hx : (strTrim l == "")
                · rfl
                · exact absurd (by simp [hx]) h1
              simp [hs, he]
        · rw [if_neg h4] at h
          by_cases h7 : (strContainsSub (strTrim l) " " && !strStarts (strTrim l) "_") = true
          · rw [if_pos h7] at h
            cases hsp : splitFirstSpace (strTrim l).data with
            | none =>
              simp only [hsp] at h
              injection h with h2'; subst h2'; exact ⟨hP.1, hP.2⟩
            | some pr =>
              simp only [hsp] at h
              cases hc : st.current with
              | none => simp only [hc] at h; exact absurd h (by simp)
              | some db =>
                simp only [hc] at h
                injection h with h2'; subst h2'
                refine ⟨hP.1, ?_⟩
                intro db2 hdb2
                injection hdb2 with h3; subst h3
                exact hP.2 db hc
          · rw [if_neg h7] at h
            by_cases h8 : strStarts (strTrim l) "_" = true
            · rw [if_pos h8] at h
              cases hsp : splitFirstSpace (strTrim l).data with
              | none =>
                simp only [hsp] at h
                injection h with h2'; subst h2'; exact ⟨hP.1, hP.2⟩
              | some pr =>
                simp only [hsp] at h
                by_cases h9 : cellLengthKeys.contains (strTrim ⟨pr.1⟩) = true
                · rw [if_pos h9] at h
                  cases hg : goParseFloat (stripQuotes (strTrim ⟨pr.2⟩)) with
                  | none =>
                    simp only [hg] at h
                    injection h with h2'; subst h2'; exact ⟨hP.1, hP.2⟩
                  | some v =>
                    simp only [hg] at h
                    cases hc : st.current with
                    | none => simp only [hc] at h; exact absurd h (by simp)
                    | some db =>
                      simp only [hc] at h
                      injection h with h2'; subst h2'
                      refine ⟨hP.1, ?_⟩
                      intro db2 hdb2
                      injection hdb2 with h3; subst h3
                      exact hP.2 db hc
                · rw [if_neg h9] at h
                  by_cases h10 : cellAngleKeys.contains (strTrim ⟨pr.1⟩) = true
                  · rw [if_pos h10] at h
                    cases hg : goParseFloat (stripQuotes (strTrim ⟨pr.2⟩)) with
                    | none =>
                      simp only [hg] at h
                      injection h with h2'; subst h2'; exact ⟨hP.1, hP.2⟩
                    | some v =>
                      simp only [hg] at h
                      cases hc : st.current with
                      | none => simp only [hc] at h; exact absurd h (by simp)
                      | some db =>
                        simp only [hc] at h
                        injection h with h2'; subst h2'
                        refine ⟨hP.1, ?_⟩
                        intro db2 hdb2
                        injection hdb2 with h3; subst h3
                        exact hP.2 db hc
                  · rw [if_neg h10] at h
                    injection h with h2'; subst h2'; exact ⟨hP.1, hP.2⟩
            · rw [if_neg h8] at h
              injection h with h2'; subst h2'; exact ⟨hP.1, hP.2⟩

theorem foldlM_no_atoms (ls : List String) : ∀ st st' : ParseState,
    NoAtoms st → List.foldlM processLine st ls = Except.ok st' → NoAtoms st' := by
  induction ls with
  | nil =>
    intro st st' hP h
    simp only [List.foldlM_nil] at h
    injection h with h2; subst h2; exact hP
  | cons a as ih =>
    intro st st' hP h
    rw [List.foldlM_cons] at h
    cases hstep : processLine st a with
    | error e => rw [hstep] at h; exact absurd h (by simp [bind, Except.bind])
    | ok st1 =>
      rw [hstep] at h
      simp only [bind, Except.bind] at h
      exact ih st1 st' (processLine_no_atoms st a st1 hP hstep) h

theorem parse_no_atom_sites (s : String) (cif : CIFFile)
    (h : parseFromString s = Except.ok cif) : cif.dataBlock.atomSites = [] := by
  unfold parseFromString at h
  cases hf : List.foldlM processLine ({} : ParseState) (strLines s) with
  | error e => rw [hf] at h; exact absurd h (by simp [bind, Except.bind])
  | ok st =>
    rw [hf] at h
    simp only [bind, Except.bind] at h
    have hP : NoAtoms st := foldlM_no_atoms (strLines s) {} st ⟨rfl, by intro db hdb; cases hdb⟩ hf
    cases hc : st.current with
    | some db =>
      rw [hc] at h; injection h with h2; subst h2
      exact hP.2 db hc
    | none =>
      rw [hc] at h; injection h with h2; subst h2
      exact hP.1

/-- Claim C1.  The claim states that for structure text with a data block,
cell lengths and a well-formed atom-site loop, parsing succeeds with an atom
count equal to the number of well-formed rows.  The code cannot satisfy this:
`processLoopData` is only called from the scanner's end-of-loop arm, which is
unreachable (blank lines are skipped before the loop logic runs, and every
non-blank line inside a loop is consumed as a header or a data row), so a
parsed structure never carries any atom sites.  On `c1Input`, which has two
well-formed five-field rows under five headers, parsing succeeds but returns
zero atom sites instead of the claimed two. -/
theorem c1_parser_never_populates_atom_sites :
    (∀ s cif, parseFromString s = Except.ok cif → cif.dataBlock.atomSites = []) ∧
    parseFromString c1Input = Except.ok c1Parsed ∧
    c1Parsed.dataBlock.atomSites.length = 0 := by
  exact ⟨parse_no_atom_sites, by decide, rfl⟩

/-- Witness for C1's theorem: its universal part applied to the concrete
scenario input. -/
theorem c1_parser_never_populates_atom_sites_witness :
    parseFromString c1Input = Except.ok c1Parsed ∧ c1Parsed.dataBlock.atomSites = [] :=
  ⟨by decide, c1_parser_never_populates_atom_sites.1 c1Input c1Parsed (by decide)⟩

/-- Claim C2.  The claim states that at most max-requests jobs run
concurrently and that an excess submission is rejected at submission time.
The handler enforces no such bound: `optimizeStructure` validates the request
and immediately runs it, consulting neither `MaxRequests` nor any running
count, so with a limit of 1 and one job already running a valid submission
still starts and the running count reaches 2, exceeding the configured
limit.  The final conjunct shows the admission decision ignores the
configuration and the server state entirely. -/
theorem optimizeSubmit_fst_ignores_config (cfg : ServerConfig) (st : ServerState)
    (req : OptimizationRequest) :
    (optimizeSubmit cfg st req).1 =
      (match validateRequest (if req.requestID == "" then { req with requestID := "generated" } else req) with
       | Except.error e => SubmitOutcome.rejected e
       | Except.ok _ => SubmitOutcome.started) := by
  simp only [optimizeSubmit]
  cases hv : validateRequest (if req.requestID == "" then { req with requestID := "generated" } else req) <;>
    simp [hv]

theorem c2_admission_limit_not_enforced :
    (optimizeSubmit c2Config c2State c2Request).1 = SubmitOutcome.started ∧
    (optimizeSubmit c2Config c2State c2Request).2.runningJobs = 2 ∧
    c2Config.maxRequests < (optimizeSubmit c2Config c2State c2Request).2.runningJobs ∧
    ∀ (cfg1 cfg2 : ServerConfig) (st1 st2 : ServerState) (req : OptimizationRequest),
      (optimizeSubmit cfg1 st1 req).1 = (optimizeSubmit cfg2 st2 req).1 := by
  refine ⟨by decide, by decide, by decide, ?_⟩
  intro cfg1 cfg2 st1 st2 req
  rw [optimizeSubmit_fst_ignores_config cfg1 st1 req, optimizeSubmit_fst_ignores_config cfg2 st2 req]

/-- Claim C3, counterexample.  Two successful runs of the optimization
pipeline on the identical (structure content, method, fmax) tuple but on
different days produce different success records: the optimized-CIF payload
embeds the creation date. -/
theorem c3_two_runs_differ_across_dates :
    runOptimizationSuccess "req-1" c3Content "GFN2-xTB" (mkRat 1 1000) "artifact" "2026-01-01" ≠
    runOptimizationSuccess "req-1" c3Content "GFN2-xTB" (mkRat 1 1000) "artifact" "2026-01-02" := by
  decide

/-- Claim C3, amended.  The parsed-data component of a success record is a
fixed value, identical across runs; but the optimized-CIF text embeds the
creation date, so runs of `RunOptimization` on different dates produce
different texts and hence different base64 payloads — the success record is
pure in (structure content, method, fmax) only for a fixed date. -/
theorem c3_parsed_data_fixed_and_payload_date_dependent :
    (∀ a1 a2 : String, parseDFTBOutput (some a1) = parseDFTBOutput (some a2)) ∧
    (∀ (cif : CIFFile) (pd : DFTBParsedData) (d1 d2 : String),
      d1 ≠ d2 → generateOptimizedCIFContent cif pd d1 ≠ generateOptimizedCIFContent cif pd d2) := by
  refine ⟨fun a1 a2 => rfl, ?_⟩
  intro cif pd d1 d2 hne heq
  apply hne
  apply String.ext
  have hd := congrArg String.data heq
  simp only [generateOptimizedCIFContent, optimizedCIFDateLine, String.data_append,
    List.append_assoc] at hd
  exact List.append_cancel_right (List.append_cancel_left (List.append_cancel_left hd))

/-- Witness for C3's amended theorem at a concrete structure and two concrete
dates. -/
theorem c3_parsed_data_fixed_and_payload_date_dependent_witness :
    generateOptimizedCIFContent c3Cif {} "2026-01-01" ≠
    generateOptimizedCIFContent c3Cif {} "2026-01-02" :=
  c3_parsed_data_fixed_and_payload_date_dependent.2 c3Cif {} "2026-01-01" "2026-01-02" (by decide)

/-- Claim C4.  The claim states that the i-th geometry line carries the i-th
atom site's element symbol.  The code writes `Elements[i % len(Elements)]`
(the unique-element list taken cyclically) on the i-th line instead, so for
the atom sequence `C, C, O` (unique list `C, O`) line 1 carries `O` while
atom 1 is a `C`.  The coordinate half of the claim does hold: each atom
contributes one Cartesian coordinate in order (third conjunct, and the
`toDFTBInput_fold_coords` development used by claim C10). -/
theorem c4_geometry_line_element_mismatch :
    (toDFTBInput (some c4Cif) "GFN2-xTB" (mkRat 1 100)).map (fun i => geomLineElement i 1) =
      Except.ok "O" ∧
    (c4Cif.dataBlock.atomSites.getD 1 {}).typeSymbol = "C" ∧
    (toDFTBInput (some c4Cif) "GFN2-xTB" (mkRat 1 100)).map (fun i => i.geometry.coordinates) =
      Except.ok [[0, 0, 0], [5, 5, 0], [0, 0, mkRat 5 2]] := by
  refine ⟨by decide, by decide, by decide⟩

/-- Claim C5.  `parseDFTBOutput` returns one fixed record for every readable
artifact, with the documented placeholder values (convergence "converged",
calculation "completed", SCC converged, total energy -100 eV and -3.6749
hartree, Fermi level -5 eV, zero charge and dipole); in particular any two
interpretations, of the same content or of different contents, coincide. -/
theorem c5_output_interpretation_fixed : ∀ a1 a2 : String,
    parseDFTBOutput (some a1) = parseDFTBOutput (some a2) ∧
    parseDFTBOutput (some a1) = Except.ok
      { warnings := []
      , convergenceStatus := "converged"
      , calculationStatus := "completed"
      , sccConverged := true
      , totalEnergyEV := -100
      , totalEnergyHartree := mkRat (-36749) 10000
      , fermiLevelEV := -5
      , totalCharge := 0
      , dipoleX := 0
      , dipoleY := 0
      , dipoleZ := 0 } :=
  fun a1 a2 => ⟨rfl, rfl⟩

/-- Claim C6.  For a launched engine run (executable present), the runner
returns the primary output path exactly when the process exits successfully
within the configured timeout and `dftb_out.hsd` exists afterwards; it fails
on nonzero exit or missing output; and when wall-clock time exceeds the
configured timeout of N seconds the process is killed and the error message
is "DFTB+ calculation timed out after N seconds". -/
theorem c6_engine_run_contract : ∀ (cfg : ServerConfig) (wd : String) (run : EngineRun),
    run.dftbPathExists = true →
    ((runDFTBCalculation cfg wd run).result = Except.ok (wd ++ "/dftb_out.hsd") ↔
      (run.procSeconds ≤ cfg.timeout ∧ run.procExitOk = true ∧ run.outputFileExists = true)) ∧
    (cfg.timeout < run.procSeconds →
      runDFTBCalculation cfg wd run =
        { result := Except.error ("DFTB+ calculation timed out after " ++ toString cfg.timeout ++ " seconds")
        , processKilled := true }) := by
  intro cfg wd run hpath
  refine ⟨?_, ?_⟩
  · simp only [runDFTBCalculation, hpath, Bool.not_true, Bool.false_eq_true, if_false]
    split
    · rename_i ht
      constructor
      · intro hcontra; exact absurd hcontra (by simp)
      · intro hrhs; exact absurd hrhs.1 (by omega)
    · rename_i ht
      split
      · rename_i hok
        constructor
        · intro hcontra; exact absurd hcontra (by simp)
        · intro hrhs; simp [hrhs.2.1] at hok
      · rename_i hok
        split
        · rename_i hout
          constructor
          · intro hcontra; exact absurd hcontra (by simp)
          · intro hrhs; simp [hrhs.2.2] at hout
        · rename_i hout
          constructor
          · intro _
            exact ⟨Nat.le_of_not_lt ht, by simpa using hok, by simpa using hout⟩
          · intro _; rfl
  · intro ht
    simp only [runDFTBCalculation, hpath, Bool.not_true, Bool.false_eq_true, if_false]
    rw [if_pos ht]

/-- Witness for C6's theorem: a 301-second run against the default
300-second timeout is reported with the explicit timeout message and the
process is killed. -/
theorem c6_engine_run_contract_witness :
    runDFTBCalculation {} "jobs/x" { procSeconds := 301 } =
      { result := Except.error "DFTB+ calculation timed out after 300 seconds"
      , processKilled := true } :=
  ((c6_engine_run_contract {} "jobs/x" { procSeconds := 301 } rfl).2 (by decide)).trans (by decide)

/-- Claim C7.  `GetStatus` returns exactly one of the four states, and each
state is characterized exactly by the presence pattern of the three
filesystem artifacts; the function takes nothing but those artifacts, so no
in-memory job state is consulted. -/
theorem c7_status_filesystem_contract : ∀ fs : JobFS,
    (getStatus fs = "not_found" ∨ getStatus fs = "running" ∨
     getStatus fs = "completed" ∨ getStatus fs = "error") ∧
    (getStatus fs = "not_found" ↔ fs.dirExists = false) ∧
    (getStatus fs = "running" ↔ (fs.dirExists = true ∧ fs.outputExists = false)) ∧
    (getStatus fs = "error" ↔
      (fs.dirExists = true ∧ fs.outputExists = true ∧ fs.errorLogExists = true)) ∧
    (getStatus fs = "completed" ↔
      (fs.dirExists = true ∧ fs.outputExists = true ∧ fs.errorLogExists = false)) := by
  intro fs
  obtain ⟨d, o, e⟩ := fs
  cases d <;> cases o <;> cases e <;> decide

/-- Claim C8, counterexample.  `ParseFromString` does not fail on input with
no data-block declaration: on the empty input it succeeds and returns a
structure with an empty data block. -/
theorem c8_parse_succeeds_without_data_block :
    parseFromString "" = Except.ok {} ∧ strContainsSub "" "data_" = false := by
  decide

/-- Claim C8, amended.  Parsing itself never raises a format error; the
separate pre-flight check `ValidateCIFContent` is what rejects content
lacking a data-block declaration, with the "missing data block declaration"
error. -/
theorem c8_validate_flags_missing_data_block : ∀ s : String,
    strContainsSub s "data_" = false →
    validateCIFContent s = Except.error "missing data block declaration" := by
  intro s h
  simp [validateCIFContent, h]

/-- Witness for C8's amended theorem at a concrete input without a
data-block declaration. -/
theorem c8_validate_flags_missing_data_block_witness :
    validateCIFContent "hello" = Except.error "missing data block declaration" :=
  c8_validate_flags_missing_data_block "hello" (by decide)

/-- Claim C9, counterexample.  The claim states synthesis fails when the
structure has no cell lengths; the code checks only the name: on a named
structure with an empty cell-length map `ToDFTBInput` succeeds (the missing
lengths silently read as 0). -/
theorem c9_missing_cell_lengths_not_rejected :
    (toDFTBInput (some c9Cif) "GFN1-xTB" 1).isOk = true ∧
    c9Cif.dataBlock.cellLength = [] := by
  decide

/-- Claim C9, amended.  Synthesis fails with the validation error exactly
when the structure is absent (nil) or has no name; the presence of cell
lengths is not checked. -/
theorem c9_fails_exactly_without_name : ∀ (cif : CIFFile) (m : String) (f : ℚ),
    ((toDFTBInput (some cif) m f).isOk = false ↔ cif.dataBlock.name = "") ∧
    (toDFTBInput (none : Option CIFFile) m f).isOk = false := by
  intro cif m f
  refine ⟨?_, rfl⟩
  cases hb : cif.dataBlock.name == "" with
  | true =>
    have hn : cif.dataBlock.name = "" := by simpa using hb
    simp [toDFTBInput, hb, hn, Except.isOk, Except.toBool]
  | false =>
    have hn : cif.dataBlock.name ≠ "" := by simpa using hb
    simp [toDFTBInput, hb, hn, Except.isOk, Except.toBool]

theorem toDFTBInput_fold_coords (a b c : ℚ) : ∀ (sites : List AtomSite)
    (els : List String) (coords : List (List ℚ)),
    (sites.foldl (fun (acc : List String × List (List ℚ)) site =>
      let els2 := if acc.1.contains site.typeSymbol then acc.1 else acc.1 ++ [site.typeSymbol]
      (els2, acc.2 ++ [[site.fractX * a, site.fractY * b, site.fractZ * c]])) (els, coords)).2
    = coords ++ sites.map (fun site => [site.fractX * a, site.fractY * b, site.fractZ * c]) := by
  intro sites
  induction sites with
  | nil => intro els coords; simp
  | cons s rest ih =>
    intro els coords
    simp only [List.foldl_cons, List.map_cons]
    rw [ih]
    simp

/-- Claim C10.  For a named structure with an orthogonal cell, the
synthesized engine input's i-th Cartesian coordinate is the i-th atom's
fractional coordinate scaled component-wise by the three cell lengths (the
code computes exactly this scaling for every cell, the angles being read but
unused). -/
theorem c10_orthogonal_cell_scaling : ∀ (cif : CIFFile) (m : String) (f : ℚ),
    cif.dataBlock.name ≠ "" →
    mapGetD cif.dataBlock.cellAngle "_cell_angle_alpha" = 90 →
    mapGetD cif.dataBlock.cellAngle "_cell_angle_beta" = 90 →
    mapGetD cif.dataBlock.cellAngle "_cell_angle_gamma" = 90 →
    (toDFTBInput (some cif) m f).map (fun i => i.geometry.coordinates) =
      Except.ok (cif.dataBlock.atomSites.map (fun site =>
        [site.fractX * mapGetD cif.dataBlock.cellLength "_cell_length_a",
         site.fractY * mapGetD cif.dataBlock.cellLength "_cell_length_b",
         site.fractZ * mapGetD cif.dataBlock.cellLength "_cell_length_c"])) := by
  intro cif m f hname _ _ _
  have hb : (cif.dataBlock.name == "") = false := by simpa using hname
  simp only [toDFTBInput, hb, Bool.false_eq_true, if_false, Except.map]
  rw [toDFTBInput_fold_coords]
  simp

/-- Witness for C10's theorem: the specification's two-carbon scenario, with
cell lengths 10 and right angles, synthesizes Cartesian coordinates (0,0,0)
and (5,5,0). -/
theorem c10_orthogonal_cell_scaling_witness :
    (toDFTBInput (some c10Cif) "GFN2-xTB" (mkRat 1 1000)).map (fun i => i.geometry.coordinates) =
      Except.ok [[0, 0, 0], [5, 5, 0]] :=
  (c10_orthogonal_cell_scaling c10Cif "GFN2-xTB" (mkRat 1 1000)
    (by decide) (by decide) (by decide) (by decide)).trans (by decide)

end DftbMcp
